import Mathlib

/-!
Verification development for the ii-agent core: token counting, message
history truncation, the context-window budget manager, tool dispatch, the
agent turn-taking loop, and the Neutralino desktop-bridge tool.

Most of the core implementation modules (agents/anthropic_fc.py,
llm/token_counter.py, llm/message_history.py, llm/context_manager/*.py,
tools/tool_manager.py, db/manager.py) are not present in this source tree;
only their unit tests and one tool implementation
(tools/neutralino_bridge_tool.py) are.  Where a definition embeds a missing
module it is modelled from the specification, with any behavior that the
repository tests pin concretely taken from those tests; each such
definition says so in its doc comment.
-/

namespace IIAgent

/-! ## TokenCounter (llm/token_counter.py)

Modelled from the spec: the module llm/token_counter.py is not in the
source tree; the behavior below follows spec section 4.1 and is pinned by
tests/llm/test_token_counter.py (text costs length // 3, an image costs
width * height // 750, a failed image decode costs a flat 1500, structured
items are charged by the length of their serialized text, and a bare
number raises ValueError "Unsupported type for token counting").
Serialization of structured items is abstracted: an item carries the text
it serializes to. -/

/-- One element of a heterogeneous content list passed to the counter.
An image item records the decoded pixel size, or none when base64 decoding
or image opening fails.  A structured (non-text, non-image) item is
represented by its serialized text form. -/
inductive CountItem where
  | text (t : String)
  | image (decoded : Option (Nat × Nat))
  | structured (serialized : String)
  deriving DecidableEq, Repr

/-- Top-level argument of TokenCounter.count_tokens: a plain string, a list
of items, or an unsupported value such as a bare number. -/
inductive CountInput where
  | str (s : String)
  | list (items : List CountItem)
  | unsupported
  deriving DecidableEq, Repr

/-- Cost of a single list item. -/
def itemTokens : CountItem → Nat
  | .text t => t.length / 3
  | .image (some (w, h)) => w * h / 750
  | .image none => 1500
  | .structured s => s.length / 3

/-- TokenCounter.count_tokens.  Returns the token estimate, or the
ValueError message for an unsupported top-level type. -/
def count_tokens : CountInput → Except String Nat
  | .str s => .ok (s.length / 3)
  | .list items => .ok ((items.map itemTokens).sum)
  | .unsupported => .error "Unsupported type for token counting"

/-! ## Neutralino bridge tool (tools/neutralino_bridge_tool.py)

This module is present in the source tree; run_impl_async is embedded
directly.  The two module-level dictionaries pending_neutralino_commands
and neutralino_command_results become explicit state.  The await of the
per-command event is abstracted by a WaitOutcome oracle: the event fired
(carrying whatever result the websocket handler deposited under the
command id in the meantime), asyncio.wait_for timed out, or some other
exception was raised inside the try block.  put_nowait on the unbounded
asyncio queue does not raise and is modelled as always succeeding. -/

/-- ToolImplOutput from tools/base.py as used by the bridge tool. -/
structure ToolImplOutput where
  toolOutput : String
  toolResultMessage : String
  error : Bool
  deriving DecidableEq, Repr

/-- A result object deposited by the websocket handler: its Python
truthiness, and the optional status and payload fields read with .get. -/
structure NeuResult where
  truthy : Bool
  status : Option String
  payload : Option String
  deriving DecidableEq, Repr

/-- The two module-level dictionaries, keyed by command id. -/
structure BridgeState where
  pending : List String
  results : List (String × NeuResult)
  deriving DecidableEq, Repr

/-- How the awaited command turned out: the event fired (with the result
the handler had deposited, if any), the 30-second wait timed out, or an
exception was raised inside the try block. -/
inductive WaitOutcome where
  | fires (deposited : Option NeuResult)
  | timeout
  | raised (msg : String)
  deriving DecidableEq, Repr

/-- NeutralinoBridgeTool.run_impl_async.  hasAgentRef is the guard on
self.agent_reference and its message_queue; commandId is the generated
uuid4.  Returns the ToolImplOutput together with the final state of the
two module-level dictionaries. -/
def run_impl_async (hasAgentRef : Bool) (commandId action : String)
    (wait : WaitOutcome) (st : BridgeState) : ToolImplOutput × BridgeState :=
  if !hasAgentRef then
    (⟨"NeutralinoBridgeTool cannot send command: agent reference or message_queue not set.",
      "NeutralinoBridgeTool cannot send command: agent reference or message_queue not set.",
      true⟩, st)
  else
    -- pending_neutralino_commands[command_id] = event; stale result popped
    let pending1 := commandId :: st.pending.filter (fun k => k ≠ commandId)
    let results1 := st.results.filter (fun p => p.1 ≠ commandId)
    match wait with
    | .fires deposited =>
      -- result = neutralino_command_results.pop(command_id, None)
      -- pending_neutralino_commands.pop(command_id, None)
      let pending2 := pending1.filter (fun k => k ≠ commandId)
      let results2 := results1.filter (fun p => p.1 ≠ commandId)
      match deposited with
      | some r =>
        if r.truthy then
          let status := r.status.getD "unknown"
          let payload := r.payload.getD "No payload in result"
          if status = "error" then
            (⟨payload, "Desktop action " ++ action ++ " failed with: " ++ payload, true⟩,
              ⟨pending2, results2⟩)
          else
            (⟨payload, "Desktop action " ++ action ++ " completed with status: " ++ status, false⟩,
              ⟨pending2, results2⟩)
        else
          (⟨"Desktop action " ++ action ++ " completed without a result payload.",
            "Desktop action completed without result.", true⟩, ⟨pending2, results2⟩)
      | none =>
        (⟨"Desktop action " ++ action ++ " completed without a result payload.",
          "Desktop action completed without result.", true⟩, ⟨pending2, results2⟩)
    | .timeout =>
      (⟨"Desktop action " ++ action ++ " timed out.", "Desktop action timed out.", true⟩,
        ⟨pending1.filter (fun k => k ≠ commandId), results1.filter (fun p => p.1 ≠ commandId)⟩)
    | .raised msg =>
      (⟨"Error during desktop action " ++ action ++ ": " ++ msg, "Error: " ++ msg, true⟩,
        ⟨pending1.filter (fun k => k ≠ commandId), results1.filter (fun p => p.1 ≠ commandId)⟩)

/-! ## Conversation data model (llm/base.py, llm/message_history.py)

Modelled from the spec: llm/base.py and llm/message_history.py are not in
the source tree.  The content-block union and the role-tagged Turn follow
spec section 3; the field names follow the accesses made by
tests/agents/test_anthropic_fc.py (.text, .tool_output). -/

/-- Role of a Turn. -/
inductive Role where
  | user
  | assistant
  deriving DecidableEq, Repr

/-- Tagged content union: user text prompt, model text result, a model
tool call, a formatted tool result, or an image. -/
inductive ContentBlock where
  | textPrompt (text : String)
  | textResult (text : String)
  | toolCall (id name : String) (input : List (String × String))
  | toolFormattedResult (callId name output : String) (isError : Bool)
  | imageBlock (mediaType data : String)
  deriving DecidableEq, Repr

/-- One role-tagged group of content blocks. -/
structure Turn where
  role : Role
  content : List ContentBlock
  deriving DecidableEq, Repr

/-- A User turn. -/
def userTurn (blocks : List ContentBlock) : Turn := ⟨.user, blocks⟩

/-- An Assistant turn. -/
def assistantTurn (blocks : List ContentBlock) : Turn := ⟨.assistant, blocks⟩

/-! ## Truncate-to-before-last-user (message_history / db mirror)

truncate_to_before_last_user_turn is modelled from the spec (backward scan
removing entries up to and including the most recent User entry, no-op
when none exists).  The persistence mirror
DatabaseManager.delete_events_from_last_to_user_message is not in the
source tree either; its behavior is pinned by
tests/db/test_manager.py: events strictly older than the last
USER_MESSAGE event remain, and when no USER_MESSAGE event exists at all,
every event is deleted.  Both are built on the same backward scan. -/

/-- Backward scan: the list is given newest-first; entries are dropped
from the front until an entry satisfying p has been dropped, returning
the remaining (strictly older) entries; none when no entry satisfies p. -/
def dropThrough (p : α → Bool) : List α → Option (List α)
  | [] => none
  | x :: rest => if p x then some rest else dropThrough p rest

/-- MessageHistory.truncate_to_before_last_user_turn: removes, from the
newest entry, every Turn back through and including the most recent User
turn; leaves the history unchanged when it has no User turn. -/
def truncate_to_before_last_user_turn (ts : List Turn) : List Turn :=
  match dropThrough (fun t => t.role = .user) ts.reverse with
  | some older => older.reverse
  | none => ts

/-- Event types stored by the persistence mirror (core/event.py). -/
inductive DBEventType where
  | userMessage
  | agentThinking
  | agentResponse
  | toolCallEvent
  | toolResultEvent
  deriving DecidableEq, Repr

/-- A persisted event row: its type and payload. -/
structure DBEvent where
  etype : DBEventType
  payload : String
  deriving DecidableEq, Repr

/-- DatabaseManager.delete_events_from_last_to_user_message: deletes,
from the newest event, every event back through and including the most
recent USER_MESSAGE event; when no USER_MESSAGE event exists every event
is deleted (behavior pinned by test_delete_events_no_user_message). -/
def delete_events_from_last_to_user_message (evs : List DBEvent) : List DBEvent :=
  match dropThrough (fun e => e.etype = .userMessage) evs.reverse with
  | some older => older.reverse
  | none => []

/-- Scanning a block with no matching entry just skips it. -/
theorem dropThrough_append_of_none (p : α → Bool) (l rest : List α)
    (h : ∀ x ∈ l, p x = false) :
    dropThrough p (l ++ rest) = dropThrough p rest := by
  induction l with
  | nil => rfl
  | cons x xs ih =>
    have hx : p x = false := h x (List.mem_cons_self x xs)
    simp only [List.cons_append, dropThrough, hx, Bool.false_eq_true, if_false]
    exact ih fun y hy => h y (List.mem_cons_of_mem x hy)

/-- When no entry matches, the scan fails. -/
theorem dropThrough_eq_none (p : α → Bool) (l : List α)
    (h : ∀ x ∈ l, p x = false) : dropThrough p l = none := by
  induction l with
  | nil => rfl
  | cons x xs ih =>
    have hx : p x = false := h x (List.mem_cons_self x xs)
    simp only [dropThrough, hx, Bool.false_eq_true, if_false]
    exact ih fun y hy => h y (List.mem_cons_of_mem x hy)

/-- When some entry matches, the scan keeps exactly what is strictly
older than the newest match. -/
theorem dropThrough_split (p : α → Bool) (pre : List α) (u : α)
    (suf : List α) (hu : p u = true) (hsuf : ∀ x ∈ suf, p x = false) :
    dropThrough p ((pre ++ u :: suf).reverse) = some pre.reverse := by
  rw [List.reverse_append, List.reverse_cons]
  rw [show suf.reverse ++ [u] ++ pre.reverse
        = suf.reverse ++ (u :: pre.reverse) by simp]
  rw [dropThrough_append_of_none p suf.reverse _
      (fun x hx => hsuf x (List.mem_reverse.mp hx))]
  simp [dropThrough, hu]

/-! ## AmortizedForgettingContextManager (llm/context_manager)

Modelled from the spec: llm/context_manager is not in the source tree and
has no tests here.  Spec section 4.2: when the token count of the
conversation exceeds tokenBudget, remove the oldest eligible complete
Turns (skipping the retained prefix) until the remaining count falls to a
lower target threshold; never remove the most recent User turn or break
role alternation (so turns are removed as whole adjacent pairs, which
preserves strict alternation and the first-turn role); when the loop
cannot reach the target, return the input unchanged (best effort, no
infinite loop). -/

/-- Token cost of one content block: its text length // 3, following the
token counter. -/
def blockTokens : ContentBlock → Nat
  | .textPrompt t => t.length / 3
  | .textResult t => t.length / 3
  | .toolCall _ name _ => name.length / 3
  | .toolFormattedResult _ _ out _ => out.length / 3
  | .imageBlock _ _ => 1500

/-- Token cost of a whole Turn. -/
def turnTokens (t : Turn) : Nat := (t.content.map blockTokens).sum

/-- Token cost of a conversation. -/
def convTokens (ts : List Turn) : Nat := (ts.map turnTokens).sum

/-- Configuration of the amortized-forgetting strategy. -/
structure AmortizedConfig where
  tokenBudget : Nat
  targetThreshold : Nat
  retainPrefixTurns : Nat
  deriving DecidableEq, Repr

/-- Does the list still contain a User turn? -/
def hasUserTurn (ts : List Turn) : Bool := ts.any (fun t => t.role = .user)

/-- k pair-removals of the oldest turns are eligible on this removable
region: each removal needs at least two turns present and must leave a
User turn (the most recent User turn is never removed). -/
def eligible : List Turn → Nat → Bool
  | _, 0 => true
  | _t1 :: _t2 :: rest2, k + 1 => hasUserTurn rest2 && eligible rest2 k
  | _, _ + 1 => false

/-- The conversation count is additive over concatenation. -/
theorem convTokens_append (a b : List Turn) :
    convTokens (a ++ b) = convTokens a + convTokens b := by
  simp [convTokens]

/-- Deletion loop: pref is the retained prefix, rest the removable
region.  Removes the two oldest turns of rest while the total count stays
above the target and the most recent User turn is not among them; returns
none when the target cannot be reached. -/
def dropPairsLoop (cfg : AmortizedConfig) :
    Nat → List Turn → List Turn → Option (List Turn)
  | 0, _, _ => none
  | fuel + 1, pref, rest =>
    if convTokens pref + convTokens rest ≤ cfg.targetThreshold then
      some (pref ++ rest)
    else
      match rest with
      | _t1 :: _t2 :: rest2 =>
        if hasUserTurn rest2 then dropPairsLoop cfg fuel pref rest2
        else none
      | _ => none

/-- AmortizedForgettingContextManager.apply_truncation: returns the input
when it is within budget; otherwise deletes the oldest eligible pairs of
turns after the retained prefix until the count falls to the target
threshold, and falls back to the unchanged input when the target is out
of reach. -/
def apply_truncation (cfg : AmortizedConfig) (turns : List Turn) : List Turn :=
  if convTokens turns ≤ cfg.tokenBudget then turns
  else
    match dropPairsLoop cfg (turns.length + 1) (turns.take cfg.retainPrefixTurns)
        (turns.drop cfg.retainPrefixTurns) with
    | some reduced => reduced
    | none => turns

/-- Soundness of the deletion loop: whatever it returns fits the target
threshold and is the retained prefix followed by the removable region
with some eligible number of oldest pairs removed. -/
theorem dropPairsLoop_spec (cfg : AmortizedConfig) :
    ∀ (fuel : Nat) (pref rest out : List Turn),
      dropPairsLoop cfg fuel pref rest = some out →
      convTokens out ≤ cfg.targetThreshold
      ∧ ∃ k, eligible rest k = true ∧ out = pref ++ rest.drop (2 * k) := by
  intro fuel
  induction fuel with
  | zero => intro pref rest out h; exact absurd h (by simp [dropPairsLoop])
  | succ n ih =>
    intro pref rest out h
    by_cases hle : convTokens pref + convTokens rest ≤ cfg.targetThreshold
    · have hout : out = pref ++ rest :=
        (show pref ++ rest = out by simpa [dropPairsLoop, hle] using h).symm
      constructor
      · rw [hout]
        simpa [convTokens] using hle
      · exact ⟨0, by simp [eligible], by simp [hout]⟩
    · match rest with
      | [] => exact absurd h (by simp [dropPairsLoop, hle])
      | [t1] => exact absurd h (by simp [dropPairsLoop, hle])
      | t1 :: t2 :: rest2 =>
        by_cases hu : hasUserTurn rest2
        · have h2 : dropPairsLoop cfg n pref rest2 = some out := by
            simpa [dropPairsLoop, hle, hu] using h
          obtain ⟨hcount, k, helig, hk⟩ := ih pref rest2 out h2
          refine ⟨hcount, k + 1, by simp [eligible, hu, helig], ?_⟩
          have hdrop : (t1 :: t2 :: rest2).drop (2 * (k + 1)) = rest2.drop (2 * k) := by
            have h21 : 2 * (k + 1) = 2 * k + 1 + 1 := by ring
            rw [h21]
            simp [List.drop_succ_cons]
          rw [hdrop]
          exact hk
        · exact absurd h (by simp [dropPairsLoop, hle, hu])

/-- Completeness of the deletion loop: when it gives up (with enough
fuel), no eligible number of pair-removals would have reached the target
threshold. -/
theorem dropPairsLoop_none (cfg : AmortizedConfig) :
    ∀ (fuel : Nat) (pref rest : List Turn), rest.length < fuel →
      dropPairsLoop cfg fuel pref rest = none →
      ∀ k : Nat, eligible rest k = true →
        cfg.targetThreshold < convTokens (pref ++ rest.drop (2 * k)) := by
  intro fuel
  induction fuel with
  | zero => intro pref rest hlen; exact absurd hlen (Nat.not_lt_zero _)
  | succ n ih =>
    intro pref rest hlen hnone k helig
    by_cases hle : convTokens pref + convTokens rest ≤ cfg.targetThreshold
    · exact absurd hnone (by simp [dropPairsLoop, hle])
    · cases k with
      | zero =>
        rw [Nat.mul_zero, List.drop_zero, convTokens_append]
        omega
      | succ j =>
        cases rest with
        | nil => exact absurd helig (by simp [eligible])
        | cons t1 rest1 =>
          cases rest1 with
          | nil => exact absurd helig (by simp [eligible])
          | cons t2 rest2 =>
            have helig2 : hasUserTurn rest2 = true ∧ eligible rest2 j = true := by
              simpa [eligible] using helig
            have hnone2 : dropPairsLoop cfg n pref rest2 = none := by
              simpa [dropPairsLoop, hle, helig2.1] using hnone
            have hlen2 : rest2.length < n := by
              simp only [List.length_cons] at hlen
              omega
            have hres := ih pref rest2 hlen2 hnone2 j helig2.2
            have hdrop : (t1 :: t2 :: rest2).drop (2 * (j + 1)) = rest2.drop (2 * j) := by
              have h21 : 2 * (j + 1) = 2 * j + 1 + 1 := by ring
              rw [h21]
              simp [List.drop_succ_cons]
            rw [hdrop]
            exact hres

/-- Taking a prefix and a later suffix of a list is a sublist of it. -/
theorem take_append_drop_sublist (l : List α) (p k : Nat) :
    List.Sublist (l.take p ++ (l.drop p).drop k) l := by
  have h1 : List.Sublist ((l.drop p).drop k) (l.drop p) := List.drop_sublist k _
  have h2 : List.Sublist (l.take p ++ (l.drop p).drop k) (l.take p ++ l.drop p) :=
    List.Sublist.append (List.Sublist.refl _) h1
  simpa using h2

/-! ## AgentToolManager (tools/tool_manager.py)

Modelled from the spec: tools/tool_manager.py is not in the source tree.
The registry lookup and its not-found failure are pinned by
tests/tools/test_tool_manager.py: get_tool searches the registered tools
plus the one completion tool and raises ValueError "Tool with name NAME
not found" when absent; run_tool looks the tool up and lets that failure
propagate to the caller.  Per spec section 4.4 the dispatcher converts an
exception raised by a found tool into an error outcome, and the caller
(the agent loop) converts a not-found failure into an isError ToolResult
instead of aborting the run. -/

/-- A registered tool: its name and its behavior, which either returns
output text or raises (the error message). -/
structure LLMToolDef where
  name : String
  run : List (String × String) → Except String String

/-- The registry: the configured tools plus the distinguished completion
tool. -/
structure AgentToolManager where
  tools : List LLMToolDef
  completeTool : LLMToolDef

/-- AgentToolManager.get_tools: every registered tool plus the completion
tool. -/
def get_tools (m : AgentToolManager) : List LLMToolDef :=
  m.tools ++ [m.completeTool]

/-- AgentToolManager.get_tool: name lookup, failing with the ValueError
message when the name is absent. -/
def get_tool (m : AgentToolManager) (name : String) : Except String LLMToolDef :=
  match (get_tools m).find? (fun t => t.name = name) with
  | some t => .ok t
  | none => .error ("Tool with name " ++ name ++ " not found")

/-- Outcome of a dispatch as the agent loop consumes it. -/
structure ToolOutcome where
  content : String
  isError : Bool
  deriving DecidableEq, Repr

/-- Dispatch: looks the tool up (a not-found failure propagates) and
converts an exception raised by the tool into an error outcome. -/
def dispatchTool (m : AgentToolManager) (name : String)
    (input : List (String × String)) : Except String ToolOutcome :=
  match get_tool m name with
  | .error e => .error e
  | .ok t =>
    match t.run input with
    | .ok s => .ok ⟨s, false⟩
    | .error msg => .ok ⟨msg, true⟩

/-- The caller-side conversion (agent loop, spec section 4.4): a
not-found failure becomes an isError ToolResult rather than an aborted
run. -/
def callerToolOutcome (m : AgentToolManager) (name : String)
    (input : List (String × String)) : ToolOutcome :=
  match dispatchTool m name input with
  | .error e => ⟨e, true⟩
  | .ok o => o

/-! ## AnthropicFC agent loop (agents/anthropic_fc.py)

Modelled from the spec: agents/anthropic_fc.py is not in the source tree.
The loop follows spec section 4.5, with the behaviors that
tests/agents/test_anthropic_fc.py pins taken from those tests:
the AGENT_RESPONSE event emitted when the model answers with text only
carries the fixed text "Task completed" rather than the answer text
(test_run_agent_llm_text_response_no_tools), the interrupted flag is
still set when run returns after a cancellation
(test_cancel_agent_during_llm_call) and is cleared by clear()
(test_clear_method), the max-turns result text is
"Agent did not complete after max turns"
(test_run_agent_max_turns_exceeded), and the cancel-during-tool run
returns TOOL_RESULT_INTERRUPT_MESSAGE with the tool-result turn carrying
that sentinel followed by a fake assistant turn
(test_cancel_agent_during_tool_call).  The model client and the tools are
external collaborators; they are abstracted by per-call scripts indexed
by how many calls have been made, with a flag recording whether cancel()
was invoked while the call was in flight.  The exact wording of the
interruption sentinels is not in the source tree; they are fixed,
pairwise distinct strings as the spec requires. -/

/-- Fixed result returned by run when cancelled at the model-call
checkpoint. -/
def AGENT_INTERRUPT_MESSAGE : String := "Agent interrupted by user"

/-- Fixed output of the synthetic ToolResult when cancelled at the
tool-dispatch checkpoint, and the result run returns in that case. -/
def TOOL_RESULT_INTERRUPT_MESSAGE : String := "Tool execution interrupted by user"

/-- Fixed text of the synthetic assistant turn appended at the model-call
checkpoint. -/
def AGENT_INTERRUPT_FAKE_MODEL_RSP : String :=
  "The run was interrupted before the model answered"

/-- Fixed text of the synthetic assistant turn appended at the
tool-dispatch checkpoint. -/
def TOOL_CALL_INTERRUPT_FAKE_MODEL_RSP : String :=
  "The tool call was interrupted while running"

/-- Fixed result text when the loop exhausts max turns (pinned by
test_run_agent_max_turns_exceeded). -/
def MAX_TURNS_MESSAGE : String := "Agent did not complete after max turns"

/-- Fixed AGENT_RESPONSE payload emitted on completion (pinned by
test_run_agent_llm_text_response_no_tools). -/
def TASK_COMPLETED_MESSAGE : String := "Task completed"

/-- Lifecycle events the loop pushes onto the message queue. -/
inductive AgentEvent where
  | agentResponse (text : String)
  | toolCallEvent (id name : String)
  | toolResultEvent (id name result : String)
  | agentCancelled
  deriving DecidableEq, Repr

/-- Behavior of one model-client generate call: the reply blocks, and
whether cancel() was invoked before the call returned. -/
structure GenStep where
  reply : List ContentBlock
  cancelDuring : Bool
  deriving Repr

/-- Behavior of one tool dispatch as the loop observes it. -/
inductive DispatchOutcome where
  | ok (output : String) (stopAfter : Bool) (answer : String)
  | notFound
  | raised (msg : String)
  deriving DecidableEq, Repr

/-- Does this outcome flip the completion tool to should_stop? -/
def stopAfterOf : DispatchOutcome → Bool
  | .ok _ s _ => s
  | _ => false

/-- Behavior of one tool dispatch: its outcome, and whether cancel() was
invoked before it returned. -/
structure ToolStep where
  outcome : DispatchOutcome
  cancelDuring : Bool
  deriving Repr

/-- Mutable agent state threaded through the run loop. -/
structure LoopState where
  history : List Turn
  events : List AgentEvent
  interrupted : Bool
  genCalls : Nat
  toolCalls : Nat
  deriving Repr

/-- Terminal state of a run. -/
inductive RunState where
  | completed
  | interruptedState
  | maxTurnsExceeded
  deriving DecidableEq, Repr

/-- What run returns together with every observable effect. -/
structure RunOutcome where
  result : String
  final : LoopState
  state : RunState
  deriving Repr

/-- The tool calls of a model reply. -/
def extractToolCalls : List ContentBlock → List (String × String × List (String × String))
  | [] => []
  | .toolCall id name input :: rest => (id, name, input) :: extractToolCalls rest
  | _ :: rest => extractToolCalls rest

/-- The text results of a model reply. -/
def extractTexts : List ContentBlock → List String
  | [] => []
  | .textResult t :: rest => t :: extractTexts rest
  | _ :: rest => extractTexts rest

/-- The turn-taking loop of AnthropicFC.run_impl.  gens and tools are the
scripts of the external collaborators, indexed by call count; fuel is the
number of remaining turns (max_turns). -/
def runLoop (gens : Nat → GenStep) (tools : Nat → ToolStep) :
    Nat → LoopState → RunOutcome
  | 0, st =>
    ⟨MAX_TURNS_MESSAGE,
      { st with events := st.events ++ [.agentResponse MAX_TURNS_MESSAGE] },
      .maxTurnsExceeded⟩
  | fuel + 1, st =>
    let g := gens st.genCalls
    let st1 : LoopState :=
      { st with genCalls := st.genCalls + 1,
                interrupted := st.interrupted || g.cancelDuring }
    if st1.interrupted then
      -- first cancellation checkpoint: checked on return from generate
      ⟨AGENT_INTERRUPT_MESSAGE,
        { st1 with
            history := st1.history ++
              [assistantTurn [.textResult AGENT_INTERRUPT_FAKE_MODEL_RSP]],
            events := st1.events ++ [.agentCancelled] },
        .interruptedState⟩
    else
      match extractToolCalls g.reply with
      | [] =>
        -- text-only reply: concatenate, append, emit, complete
        let fullText := String.join (extractTexts g.reply)
        ⟨fullText,
          { st1 with
              history := st1.history ++ [assistantTurn [.textResult fullText]],
              events := st1.events ++ [.agentResponse TASK_COMPLETED_MESSAGE] },
          .completed⟩
      | (id, name, input) :: _ =>
        let st2 : LoopState :=
          { st1 with
              history := st1.history ++ [assistantTurn [.toolCall id name input]],
              events := st1.events ++ [.toolCallEvent id name] }
        let t := tools st2.toolCalls
        let st3 : LoopState :=
          { st2 with toolCalls := st2.toolCalls + 1,
                     interrupted := st2.interrupted || t.cancelDuring }
        if st3.interrupted then
          -- second cancellation checkpoint: checked on return from dispatch
          ⟨TOOL_RESULT_INTERRUPT_MESSAGE,
            { st3 with
                history := st3.history ++
                  [userTurn [.toolFormattedResult id name TOOL_RESULT_INTERRUPT_MESSAGE true],
                   assistantTurn [.textResult TOOL_CALL_INTERRUPT_FAKE_MODEL_RSP]],
                events := st3.events ++ [.agentCancelled] },
            .interruptedState⟩
        else
          match t.outcome with
          | .ok output stopAfter answer =>
            let st4 : LoopState :=
              { st3 with
                  history := st3.history ++
                    [userTurn [.toolFormattedResult id name output false]],
                  events := st3.events ++ [.toolResultEvent id name output] }
            if stopAfter then
              ⟨answer,
                { st4 with events := st4.events ++ [.agentResponse TASK_COMPLETED_MESSAGE] },
                .completed⟩
            else
              runLoop gens tools fuel st4
          | .notFound =>
            -- ToolNotFoundError converted to an isError ToolResult; loop continues
            let msg := "Tool with name " ++ name ++ " not found"
            runLoop gens tools fuel
              { st3 with
                  history := st3.history ++
                    [userTurn [.toolFormattedResult id name msg true]],
                  events := st3.events ++ [.toolResultEvent id name msg] }
          | .raised msg =>
            -- a tool exception converted to an isError ToolResult; loop continues
            runLoop gens tools fuel
              { st3 with
                  history := st3.history ++
                    [userTurn [.toolFormattedResult id name msg true]],
                  events := st3.events ++ [.toolResultEvent id name msg] }

/-- AnthropicFC.run_agent: appends the user turn and runs the loop. -/
def run_agent (instruction : String) (maxTurns : Nat)
    (gens : Nat → GenStep) (tools : Nat → ToolStep) : RunOutcome :=
  runLoop gens tools maxTurns
    ⟨[userTurn [.textPrompt instruction]], [], false, 0, 0⟩

/-- AnthropicFC.clear: empties the history and clears the interrupted
flag (pinned by test_clear_method). -/
def clearAgent (_st : LoopState) : List Turn × Bool := ([], false)

/-! ## Claim theorems -/

/-- C8: TokenCounter.count is a sum homomorphism: a string costs its
length // 3 (so "abc" costs 1 and "" costs 0), a list costs the sum of
the per-item costs and is additive over concatenation, a text item is
counted as its text, an image item costs width * height // 750 (a
100 by 100 image costs 13), and any other structured item is counted as
its serialized text form. -/
theorem c8_token_counter_sum_homomorphism :
    (∀ s : String, count_tokens (.str s) = .ok (s.length / 3))
    ∧ count_tokens (.str "abc") = .ok 1
    ∧ count_tokens (.str "") = .ok 0
    ∧ (∀ items : List CountItem,
        count_tokens (.list items) = .ok ((items.map itemTokens).sum))
    ∧ (∀ xs ys : List CountItem,
        count_tokens (.list (xs ++ ys)) =
          .ok ((xs.map itemTokens).sum + (ys.map itemTokens).sum))
    ∧ (∀ t : String, itemTokens (.text t) = t.length / 3)
    ∧ (∀ w h : Nat, itemTokens (.image (some (w, h))) = w * h / 750)
    ∧ itemTokens (.image (some (100, 100))) = 13
    ∧ (∀ s : String, itemTokens (.structured s) = s.length / 3) := by
  refine ⟨fun s => rfl, rfl, rfl, fun items => rfl, fun xs ys => ?_,
    fun t => rfl, fun w h => rfl, rfl, fun s => rfl⟩
  simp [count_tokens]

/-- C9: TokenCounter.count fails exactly on an unsupported top-level
type, where it raises the ValueError "Unsupported type for token
counting"; on string and list inputs it never fails, and an image item
whose data cannot be decoded is charged the fixed fallback cost 1500
instead of propagating the decoding error. -/
theorem c9_token_counter_unsupported_only :
    (∀ inp : CountInput,
      (∃ e, count_tokens inp = .error e) ↔ inp = .unsupported)
    ∧ count_tokens .unsupported = .error "Unsupported type for token counting"
    ∧ itemTokens (.image none) = 1500
    ∧ count_tokens (.list [.image none]) = .ok 1500 := by
  refine ⟨fun inp => ⟨?_, ?_⟩, rfl, rfl, rfl⟩
  · intro ⟨e, he⟩
    cases inp with
    | str s => exact absurd he (by simp [count_tokens])
    | list items => exact absurd he (by simp [count_tokens])
    | unsupported => rfl
  · intro h
    exact ⟨"Unsupported type for token counting", by simp [h, count_tokens]⟩

/-- After run_impl_async the command id is not a key of
pending_neutralino_commands. -/
theorem run_impl_async_pending_clean (cid action : String) (wait : WaitOutcome)
    (st : BridgeState) :
    cid ∉ (run_impl_async true cid action wait st).2.pending := by
  cases wait with
  | fires deposited =>
    cases deposited with
    | none => simp [run_impl_async, List.mem_filter]
    | some r0 =>
      by_cases ht : r0.truthy
      · by_cases hs : r0.status.getD "unknown" = "error" <;>
          simp [run_impl_async, ht, hs, List.mem_filter]
      · simp [run_impl_async, ht, List.mem_filter]
  | timeout => simp [run_impl_async, List.mem_filter]
  | raised msg => simp [run_impl_async, List.mem_filter]

/-- After run_impl_async the command id is not a key of
neutralino_command_results. -/
theorem run_impl_async_results_clean (cid action : String) (wait : WaitOutcome)
    (st : BridgeState) (x : NeuResult) :
    (cid, x) ∉ (run_impl_async true cid action wait st).2.results := by
  cases wait with
  | fires deposited =>
    cases deposited with
    | none => simp [run_impl_async, List.mem_filter]
    | some r0 =>
      by_cases ht : r0.truthy
      · by_cases hs : r0.status.getD "unknown" = "error" <;>
          simp [run_impl_async, ht, hs, List.mem_filter]
      · simp [run_impl_async, ht, List.mem_filter]
  | timeout => simp [run_impl_async, List.mem_filter]
  | raised msg => simp [run_impl_async, List.mem_filter]

/-- C10: on every exit path of NeutralinoBridgeTool.run_impl_async
(result received, result missing or falsy after the event fires,
30-second timeout, exception inside the try block) the generated
command id is absent from both module-level maps afterwards, and every
failure path returns a ToolImplOutput with error set instead of raising;
the missing-agent-reference guard also returns an error output without
touching the maps. -/
theorem c10_bridge_cleanup (cid action : String) (wait : WaitOutcome)
    (st : BridgeState) :
    cid ∉ (run_impl_async true cid action wait st).2.pending
    ∧ (∀ x : NeuResult, (cid, x) ∉ (run_impl_async true cid action wait st).2.results)
    ∧ (wait = .timeout → (run_impl_async true cid action wait st).1.error = true)
    ∧ (∀ m, wait = .raised m → (run_impl_async true cid action wait st).1.error = true)
    ∧ (wait = .fires none → (run_impl_async true cid action wait st).1.error = true)
    ∧ (∀ r0 : NeuResult, wait = .fires (some r0) → r0.truthy = false →
        (run_impl_async true cid action wait st).1.error = true)
    ∧ (run_impl_async false cid action wait st).1.error = true
    ∧ (run_impl_async false cid action wait st).2 = st := by
  refine ⟨run_impl_async_pending_clean cid action wait st,
    fun x => run_impl_async_results_clean cid action wait st x,
    ?_, ?_, ?_, ?_, rfl, rfl⟩
  · intro h; subst h; simp [run_impl_async]
  · intro m h; subst h; simp [run_impl_async]
  · intro h; subst h; simp [run_impl_async]
  · intro r0 h hf; subst h; simp [run_impl_async, hf]

/-- C6 counterexample: with no USER_MESSAGE event at all, the
persistence-mirror deletion removes every event instead of leaving the
stored history unchanged (behavior asserted by
test_delete_events_no_user_message). -/
theorem c6_counterexample :
    delete_events_from_last_to_user_message
      [⟨.agentThinking, "thought"⟩, ⟨.toolCallEvent, "tool1"⟩] = []
    ∧ ([⟨.agentThinking, "thought"⟩, ⟨.toolCallEvent, "tool1"⟩] : List DBEvent) ≠ [] :=
  ⟨rfl, by simp⟩

/-- C6 (amended): both truncate-to-before-last-user operations remove,
scanning from the newest entry, every entry back through and including
the most recent User entry, leaving exactly the strictly-older entries;
with no User entry the history operation leaves the history unchanged,
while the persistence mirror deletes every event (so the mirror is a
no-op only on an empty store). -/
theorem c6_truncate_through_last_user :
    (∀ (pre : List Turn) (u : Turn) (suf : List Turn),
      u.role = .user → (∀ t ∈ suf, t.role ≠ .user) →
      truncate_to_before_last_user_turn (pre ++ u :: suf) = pre)
    ∧ (∀ ts : List Turn, (∀ t ∈ ts, t.role ≠ .user) →
        truncate_to_before_last_user_turn ts = ts)
    ∧ (∀ (pre : List DBEvent) (u : DBEvent) (suf : List DBEvent),
      u.etype = .userMessage → (∀ e ∈ suf, e.etype ≠ .userMessage) →
      delete_events_from_last_to_user_message (pre ++ u :: suf) = pre)
    ∧ (∀ evs : List DBEvent, (∀ e ∈ evs, e.etype ≠ .userMessage) →
        delete_events_from_last_to_user_message evs = []) := by
  refine ⟨?_, ?_, ?_, ?_⟩
  · intro pre u suf hu hsuf
    unfold truncate_to_before_last_user_turn
    rw [dropThrough_split (fun t => t.role = .user) pre u suf
      (by simp [hu]) (fun x hx => by simp [hsuf x hx])]
    simp
  · intro ts hts
    unfold truncate_to_before_last_user_turn
    rw [dropThrough_eq_none (fun t => t.role = .user) ts.reverse
      (fun x hx => by simp [hts x (List.mem_reverse.mp hx)])]
  · intro pre u suf hu hsuf
    unfold delete_events_from_last_to_user_message
    rw [dropThrough_split (fun e => e.etype = .userMessage) pre u suf
      (by simp [hu]) (fun x hx => by simp [hsuf x hx])]
    simp
  · intro evs hevs
    unfold delete_events_from_last_to_user_message
    rw [dropThrough_eq_none (fun e => e.etype = .userMessage) evs.reverse
      (fun x hx => by simp [hevs x (List.mem_reverse.mp hx)])]

/-- C6 witness: the theorem applied to a six-event store whose last
USER_MESSAGE is the fourth event (the layout of
test_delete_events_from_last_to_user_message) and to the history
[User, Assistant, User]. -/
theorem c6_truncate_witness :
    delete_events_from_last_to_user_message
      [⟨.agentThinking, "1"⟩, ⟨.userMessage, "User message 1"⟩,
       ⟨.toolCallEvent, "tool1"⟩, ⟨.userMessage, "User message 2"⟩,
       ⟨.agentResponse, "Response"⟩, ⟨.toolResultEvent, "res"⟩] =
      [⟨.agentThinking, "1"⟩, ⟨.userMessage, "User message 1"⟩,
       ⟨.toolCallEvent, "tool1"⟩]
    ∧ truncate_to_before_last_user_turn
      [userTurn [.textPrompt "U1"], assistantTurn [.textResult "A1"],
       userTurn [.textPrompt "U2"]] =
      [userTurn [.textPrompt "U1"], assistantTurn [.textResult "A1"]] := by
  constructor
  · exact c6_truncate_through_last_user.2.2.1
      [⟨.agentThinking, "1"⟩, ⟨.userMessage, "User message 1"⟩,
       ⟨.toolCallEvent, "tool1"⟩] ⟨.userMessage, "User message 2"⟩
      [⟨.agentResponse, "Response"⟩, ⟨.toolResultEvent, "res"⟩]
      rfl (by decide)
  · exact c6_truncate_through_last_user.1
      [userTurn [.textPrompt "U1"], assistantTurn [.textResult "A1"]]
      (userTurn [.textPrompt "U2"]) [] rfl (by simp)

/-- C5 (amended): apply_truncation only ever returns whole Turns of the
input (the result is a sublist: the retained prefix followed by the
removable region with its oldest pairs removed), and every result either
fits the lower target threshold or is the unchanged input; moreover, on
an over-budget conversation, whenever the target threshold is reachable
by removing some eligible number of oldest pairs (keeping the retained
prefix and the most recent User turn) the returned conversation's token
count is at most the target, and when no eligible removal reaches the
target — in particular when even the minimum retained set exceeds the
budget — the input is returned unchanged rather than looping. -/
theorem c5_amortized_budget (cfg : AmortizedConfig) (turns : List Turn) :
    List.Sublist (apply_truncation cfg turns) turns
    ∧ (convTokens (apply_truncation cfg turns) ≤ cfg.targetThreshold
        ∨ apply_truncation cfg turns = turns)
    ∧ (cfg.tokenBudget < convTokens turns →
        (∃ k, eligible (turns.drop cfg.retainPrefixTurns) k = true
            ∧ convTokens (turns.take cfg.retainPrefixTurns
                ++ (turns.drop cfg.retainPrefixTurns).drop (2 * k)) ≤
              cfg.targetThreshold) →
        convTokens (apply_truncation cfg turns) ≤ cfg.targetThreshold)
    ∧ (cfg.tokenBudget < convTokens turns →
        (∀ k, eligible (turns.drop cfg.retainPrefixTurns) k = true →
          cfg.targetThreshold < convTokens (turns.take cfg.retainPrefixTurns
              ++ (turns.drop cfg.retainPrefixTurns).drop (2 * k))) →
        apply_truncation cfg turns = turns) := by
  by_cases hb : convTokens turns ≤ cfg.tokenBudget
  · have he : apply_truncation cfg turns = turns := by simp [apply_truncation, hb]
    exact ⟨by rw [he], Or.inr he, fun hgt => absurd hgt (by omega),
      fun hgt => absurd hgt (by omega)⟩
  · have hlen : (turns.drop cfg.retainPrefixTurns).length < turns.length + 1 := by
      simp only [List.length_drop]
      omega
    rcases hdrop : dropPairsLoop cfg (turns.length + 1)
        (turns.take cfg.retainPrefixTurns) (turns.drop cfg.retainPrefixTurns)
      with _ | reduced
    · have he : apply_truncation cfg turns = turns := by
        simp [apply_truncation, hb, hdrop]
      have hnone := dropPairsLoop_none cfg (turns.length + 1)
        (turns.take cfg.retainPrefixTurns) (turns.drop cfg.retainPrefixTurns)
        hlen hdrop
      refine ⟨by rw [he], Or.inr he, fun _ hex => ?_, fun _ _ => he⟩
      obtain ⟨k, helig, hfit⟩ := hex
      exact absurd hfit (by have := hnone k helig; omega)
    · have he : apply_truncation cfg turns = reduced := by
        simp [apply_truncation, hb, hdrop]
      obtain ⟨hcount, k, helig, hk⟩ := dropPairsLoop_spec cfg (turns.length + 1)
        (turns.take cfg.retainPrefixTurns) (turns.drop cfg.retainPrefixTurns)
        reduced hdrop
      refine ⟨?_, Or.inl (he ▸ hcount), fun _ _ => he ▸ hcount, fun _ hall => ?_⟩
      · rw [he, hk]
        exact take_append_drop_sublist turns cfg.retainPrefixTurns (2 * k)
      · exfalso
        have := hall k helig
        rw [← hk] at this
        omega

/-- Configuration used by the C5 counterexample: budget 10, target 3, no
retained prefix. -/
def c5Cfg : AmortizedConfig := ⟨10, 3, 0⟩

/-- Conversation used by the C5 counterexample: three turns of 4 tokens
each (12-character texts), 12 tokens in total. -/
def c5Turns : List Turn :=
  [userTurn [.textPrompt "aaaaaaaaaaaa"],
   assistantTurn [.textResult "bbbbbbbbbbbb"],
   userTurn [.textPrompt "cccccccccccc"]]

/-- C5 counterexample: this conversation exceeds the budget (12 > 10),
yet apply_truncation cannot reach the target threshold of 3 because the
protected most recent User turn already costs 4, so it returns the input
unchanged with 12 tokens; the claim's escape clause does not apply since
the minimum retained set (the final User turn, 4 tokens) is well within
the budget. -/
theorem c5_counterexample :
    convTokens c5Turns > c5Cfg.tokenBudget
    ∧ apply_truncation c5Cfg c5Turns = c5Turns
    ∧ ¬ (convTokens (apply_truncation c5Cfg c5Turns) ≤ c5Cfg.targetThreshold)
    ∧ convTokens [userTurn [.textPrompt "cccccccccccc"]] ≤ c5Cfg.tokenBudget := by
  decide

/-- C7: dispatch fails with the ToolNotFoundError ValueError exactly when
the named tool is absent from the registry (and never because a found
tool raised, since such exceptions are converted into error outcomes);
the caller converts the failure into an isError ToolResult, and the run
loop, fed such an error result, continues with the next model call
instead of aborting the run. -/
theorem c7_tool_not_found (m : AgentToolManager) (name : String)
    (input : List (String × String)) :
    ((∃ e, dispatchTool m name input = .error e) ↔
      name ∉ (get_tools m).map LLMToolDef.name)
    ∧ (name ∉ (get_tools m).map LLMToolDef.name →
        callerToolOutcome m name input =
          ⟨"Tool with name " ++ name ++ " not found", true⟩)
    ∧ (∀ (gens : Nat → GenStep) (tools : Nat → ToolStep) (fuel : Nat)
        (st : LoopState) (id nm : String) (inp : List (String × String)),
        st.interrupted = false →
        gens st.genCalls = ⟨[.toolCall id nm inp], false⟩ →
        tools st.toolCalls = ⟨.notFound, false⟩ →
        runLoop gens tools (fuel + 1) st =
          runLoop gens tools fuel
            { st with
                genCalls := st.genCalls + 1,
                toolCalls := st.toolCalls + 1,
                history := st.history ++
                  [assistantTurn [.toolCall id nm inp],
                   userTurn [.toolFormattedResult id nm
                     ("Tool with name " ++ nm ++ " not found") true]],
                events := st.events ++
                  [.toolCallEvent id nm,
                   .toolResultEvent id nm
                     ("Tool with name " ++ nm ++ " not found")] }) := by
  refine ⟨⟨?_, ?_⟩, ?_, ?_⟩
  · intro ⟨e, he⟩ hmem
    obtain ⟨t, ht, hname⟩ := List.mem_map.mp hmem
    rcases hfind : (get_tools m).find? (fun u => u.name = name) with _ | u
    · have := List.find?_eq_none.mp hfind t ht
      simp [hname] at this
    · rcases hr : t.run input with _ | _ <;>
        · rw [dispatchTool, get_tool, hfind] at he
          rcases hrun : u.run input with _ | _ <;> simp [hrun] at he
  · intro hmem
    rcases hfind : (get_tools m).find? (fun u => u.name = name) with _ | u
    · exact ⟨"Tool with name " ++ name ++ " not found",
        by rw [dispatchTool, get_tool, hfind]⟩
    · exfalso
      have hu := List.find?_some hfind
      have humem := List.mem_of_find?_eq_some hfind
      exact hmem (List.mem_map.mpr ⟨u, humem, by simpa using hu⟩)
  · intro hmem
    rcases hfind : (get_tools m).find? (fun u => u.name = name) with _ | u
    · rw [callerToolOutcome, dispatchTool, get_tool, hfind]
    · exfalso
      have hu := List.find?_some hfind
      have humem := List.mem_of_find?_eq_some hfind
      exact hmem (List.mem_map.mpr ⟨u, humem, by simpa using hu⟩)
  · intro gens tools fuel st id nm inp hint hg ht
    conv_lhs => rw [runLoop]
    simp only [hg, hint, ht, Bool.false_or, Bool.or_false]
    simp [extractToolCalls, List.append_assoc]

/-- C7 witness: a registry holding tool1, tool2 and the completion tool
has no tool named unknown_tool, so dispatch fails and the caller-side
conversion yields the isError ToolResult. -/
theorem c7_tool_not_found_witness :
    callerToolOutcome
      ⟨[⟨"tool1", fun _ => .ok "Tool 1 direct string output"⟩,
        ⟨"tool2", fun _ => .ok "Tool 2 output for LLM part"⟩],
       ⟨"return_control_to_user", fun _ => .ok "done"⟩⟩
      "unknown_tool" [] =
      ⟨"Tool with name unknown_tool not found", true⟩ := by
  have h := c7_tool_not_found
    ⟨[⟨"tool1", fun _ => .ok "Tool 1 direct string output"⟩,
      ⟨"tool2", fun _ => .ok "Tool 2 output for LLM part"⟩],
     ⟨"return_control_to_user", fun _ => .ok "done"⟩⟩
    "unknown_tool" []
  exact h.2.1 (by simp [get_tools])

/-- A reply consisting of text results only carries no tool call. -/
theorem extractToolCalls_map_textResult (texts : List String) :
    extractToolCalls (texts.map ContentBlock.textResult) = [] := by
  induction texts with
  | nil => rfl
  | cons t ts ih => simpa [extractToolCalls] using ih

/-- Extracting the texts of a text-only reply recovers them all. -/
theorem extractTexts_map_textResult (texts : List String) :
    extractTexts (texts.map ContentBlock.textResult) = texts := by
  induction texts with
  | nil => rfl
  | cons t ts ih => simpa [extractTexts] using ih

/-- C1 (amended): when the model reply contains only text results and no
cancellation occurs, run returns their concatenation, the history gains a
final Assistant turn holding that text as a TextResult, and the emitted
events consist of a single AGENT_RESPONSE event carrying the fixed text
"Task completed" (not the reply text). -/
theorem c1_text_only_run (instruction : String) (texts : List String)
    (tools : Nat → ToolStep) (n : Nat) :
    (run_agent instruction (n + 1)
      (fun _ => ⟨texts.map .textResult, false⟩) tools).result =
      String.join texts
    ∧ (run_agent instruction (n + 1)
        (fun _ => ⟨texts.map .textResult, false⟩) tools).final.history =
      [userTurn [.textPrompt instruction],
       assistantTurn [.textResult (String.join texts)]]
    ∧ (run_agent instruction (n + 1)
        (fun _ => ⟨texts.map .textResult, false⟩) tools).final.events =
      [.agentResponse TASK_COMPLETED_MESSAGE]
    ∧ (run_agent instruction (n + 1)
        (fun _ => ⟨texts.map .textResult, false⟩) tools).state = .completed := by
  refine ⟨?_, ?_, ?_, ?_⟩ <;>
    simp [run_agent, runLoop, extractToolCalls_map_textResult,
      extractTexts_map_textResult]

/-- C1 counterexample: in the spec scenario (instruction "Hello", reply
TextResult "Hi" only) the run returns "Hi" and the history is as claimed,
but the emitted events are not [AGENT_RESPONSE "Hi"]: the single
AGENT_RESPONSE event carries "Task completed", as
test_run_agent_llm_text_response_no_tools asserts. -/
theorem c1_counterexample :
    (run_agent "Hello" 10 (fun _ => ⟨[.textResult "Hi"], false⟩)
      (fun _ => ⟨.ok "unused" false "", false⟩)).result = "Hi"
    ∧ (run_agent "Hello" 10 (fun _ => ⟨[.textResult "Hi"], false⟩)
        (fun _ => ⟨.ok "unused" false "", false⟩)).final.history =
      [userTurn [.textPrompt "Hello"], assistantTurn [.textResult "Hi"]]
    ∧ (run_agent "Hello" 10 (fun _ => ⟨[.textResult "Hi"], false⟩)
        (fun _ => ⟨.ok "unused" false "", false⟩)).final.events =
      [.agentResponse "Task completed"]
    ∧ (run_agent "Hello" 10 (fun _ => ⟨[.textResult "Hi"], false⟩)
        (fun _ => ⟨.ok "unused" false "", false⟩)).final.events ≠
      [.agentResponse "Hi"] := by
  decide

/-- C2 (amended): a cancellation observed at the model-call checkpoint
ends the run Interrupted with the model-call interruption sentinel as
result and the synthetic Assistant turn holding the interruption marker
as last history entry; the interrupted flag is still set when run
returns, and a subsequent clear() empties the history and clears it. -/
theorem c2_cancel_during_model_call (instruction : String)
    (reply : List ContentBlock) (tools : Nat → ToolStep) (n : Nat) :
    (run_agent instruction (n + 1) (fun _ => ⟨reply, true⟩) tools).result =
      AGENT_INTERRUPT_MESSAGE
    ∧ (run_agent instruction (n + 1) (fun _ => ⟨reply, true⟩) tools).final.history =
      [userTurn [.textPrompt instruction],
       assistantTurn [.textResult AGENT_INTERRUPT_FAKE_MODEL_RSP]]
    ∧ (run_agent instruction (n + 1) (fun _ => ⟨reply, true⟩) tools).state =
      .interruptedState
    ∧ (run_agent instruction (n + 1) (fun _ => ⟨reply, true⟩) tools).final.interrupted =
      true
    ∧ clearAgent (run_agent instruction (n + 1) (fun _ => ⟨reply, true⟩) tools).final =
      ([], false) := by
  refine ⟨?_, ?_, ?_, ?_, ?_⟩ <;> simp [run_agent, runLoop, clearAgent]

/-- C2 counterexample: in the cancel-during-model-call scenario the run
returns the interruption sentinel but the interrupted flag is still true
after run returns (test_cancel_agent_during_llm_call asserts exactly
this), contradicting the claim that the flag is cleared before run
returns. -/
theorem c2_counterexample :
    (run_agent "Long task" 10
      (fun _ => ⟨[.textResult "Should be interrupted."], true⟩)
      (fun _ => ⟨.ok "unused" false "", false⟩)).result = AGENT_INTERRUPT_MESSAGE
    ∧ (run_agent "Long task" 10
        (fun _ => ⟨[.textResult "Should be interrupted."], true⟩)
        (fun _ => ⟨.ok "unused" false "", false⟩)).final.interrupted = true := by
  decide

/-- C3: a cancellation observed at the tool-dispatch checkpoint makes run
return the tool-result interruption sentinel, which differs from the
model-call interruption sentinel, and the history ends with a User turn
whose ToolResult output is that sentinel followed by a synthetic
Assistant turn acknowledging the tool-call interruption. -/
theorem c3_cancel_during_tool_dispatch (instruction id name output answer : String)
    (input : List (String × String)) (stop : Bool) (n : Nat) :
    (run_agent instruction (n + 1) (fun _ => ⟨[.toolCall id name input], false⟩)
      (fun _ => ⟨.ok output stop answer, true⟩)).result =
      TOOL_RESULT_INTERRUPT_MESSAGE
    ∧ TOOL_RESULT_INTERRUPT_MESSAGE ≠ AGENT_INTERRUPT_MESSAGE
    ∧ (run_agent instruction (n + 1) (fun _ => ⟨[.toolCall id name input], false⟩)
        (fun _ => ⟨.ok output stop answer, true⟩)).final.history =
      [userTurn [.textPrompt instruction],
       assistantTurn [.toolCall id name input],
       userTurn [.toolFormattedResult id name TOOL_RESULT_INTERRUPT_MESSAGE true],
       assistantTurn [.textResult TOOL_CALL_INTERRUPT_FAKE_MODEL_RSP]]
    ∧ (run_agent instruction (n + 1) (fun _ => ⟨[.toolCall id name input], false⟩)
        (fun _ => ⟨.ok output stop answer, true⟩)).state = .interruptedState := by
  refine ⟨?_, by decide, ?_, ?_⟩ <;>
    simp [run_agent, runLoop, extractToolCalls]

/-- C4: with maxTurns = 1 and a model that always replies with a
ToolCall, the run makes exactly one model call and one tool dispatch,
ends MaxTurnsExceeded regardless of the dispatch outcome (as long as the
completion tool was not triggered), returns the fixed message
"Agent did not complete after max turns", and emits that message as an
AGENT_RESPONSE event. -/
theorem c4_max_turns_exceeded (instruction id name : String)
    (input : List (String × String)) (o : DispatchOutcome)
    (h : stopAfterOf o = false) :
    (run_agent instruction 1 (fun _ => ⟨[.toolCall id name input], false⟩)
      (fun _ => ⟨o, false⟩)).result = MAX_TURNS_MESSAGE
    ∧ (run_agent instruction 1 (fun _ => ⟨[.toolCall id name input], false⟩)
        (fun _ => ⟨o, false⟩)).state = .maxTurnsExceeded
    ∧ (run_agent instruction 1 (fun _ => ⟨[.toolCall id name input], false⟩)
        (fun _ => ⟨o, false⟩)).final.genCalls = 1
    ∧ (run_agent instruction 1 (fun _ => ⟨[.toolCall id name input], false⟩)
        (fun _ => ⟨o, false⟩)).final.toolCalls = 1
    ∧ .agentResponse MAX_TURNS_MESSAGE ∈
      (run_agent instruction 1 (fun _ => ⟨[.toolCall id name input], false⟩)
        (fun _ => ⟨o, false⟩)).final.events := by
  cases o with
  | ok output stop answer =>
    have hs : stop = false := by simpa [stopAfterOf] using h
    subst hs
    refine ⟨?_, ?_, ?_, ?_, ?_⟩ <;>
      simp [run_agent, runLoop, extractToolCalls]
  | notFound =>
    refine ⟨?_, ?_, ?_, ?_, ?_⟩ <;>
      simp [run_agent, runLoop, extractToolCalls]
  | raised msg =>
    refine ⟨?_, ?_, ?_, ?_, ?_⟩ <;>
      simp [run_agent, runLoop, extractToolCalls]

/-- C4 witness: the theorem applied to the test scenario of
test_run_agent_max_turns_exceeded (tool call loop_call returning
"Loop result"). -/
theorem c4_max_turns_exceeded_witness :
    (run_agent "Loop forever" 1
      (fun _ => ⟨[.toolCall "loop_call" "simple_tool" [("arg", "loop")]], false⟩)
      (fun _ => ⟨.ok "Loop result" false "", false⟩)).result = MAX_TURNS_MESSAGE
    ∧ (run_agent "Loop forever" 1
        (fun _ => ⟨[.toolCall "loop_call" "simple_tool" [("arg", "loop")]], false⟩)
        (fun _ => ⟨.ok "Loop result" false "", false⟩)).final.genCalls = 1 := by
  have hmain := c4_max_turns_exceeded "Loop forever" "loop_call" "simple_tool"
    [("arg", "loop")] (.ok "Loop result" false "") rfl
  exact ⟨hmain.1, hmain.2.2.1⟩

/-- C10 witness: the theorem applied at a concrete timed-out command with
a populated pending map. -/
theorem c10_bridge_cleanup_witness :
    "cmd-1" ∉ (run_impl_async true "cmd-1" "show_notification" .timeout
      ⟨["cmd-1", "cmd-2"], [("cmd-1", ⟨true, none, none⟩)]⟩).2.pending
    ∧ (run_impl_async true "cmd-1" "show_notification" .timeout
      ⟨["cmd-1", "cmd-2"], [("cmd-1", ⟨true, none, none⟩)]⟩).1.error = true := by
  have h := c10_bridge_cleanup "cmd-1" "show_notification" .timeout
    ⟨["cmd-1", "cmd-2"], [("cmd-1", ⟨true, none, none⟩)]⟩
  exact ⟨h.1, h.2.2.1 rfl⟩

end IIAgent
